import Mathlib

/-!
Verification of the auto-deny-rules orchestrator (src/auto-deny-rules.go).

The development shallowly embeds the Go program: pure computations become
Lean functions, each HTTP interaction is abstracted as an oracle parameter
(the response the backing system would give), and the goroutine/semaphore
orchestration of `main` is embedded twice — as a sequential denotation
(justified because every group joins before the next begins) and as a
small-step machine whose scheduler is nondeterministic, used for the
concurrency and join-barrier claims.
-/

/-- Mirrors the Go struct `Label` (href, key, value). -/
structure Label where
  href : String
  key : String
  value : String
deriving DecidableEq

/-- Mirrors the Go struct `ServicePort` (port, proto, to_port). -/
structure ServicePort where
  port : Int
  proto : Int
  toPort : Int
deriving DecidableEq

/-- Mirrors the Go struct `Service` (href, name, service_ports). -/
structure Service where
  href : String
  name : String
  servicePorts : List ServicePort
deriving DecidableEq

/-- A JSON value as far as the polling loop inspects it: Go's
`poll["status"].(string)` and `poll["flows_count"].(float64)` are type
assertions with a zero default, modelled by `asString` / `asNum`. -/
inductive JVal where
  | str : String → JVal
  | num : Int → JVal
  | jnull : JVal
  | other : JVal
deriving DecidableEq

/-- Go type assertion `.(string)`: `some` only when the value is a string. -/
def JVal.asString : JVal → Option String
  | .str s => some s
  | _ => none

/-- Go type assertion `.(float64)`: `some` only when the value is numeric. -/
def JVal.asNum : JVal → Option Int
  | .num n => some n
  | _ => none

/-- One poll response body: the two fields `runSingleAsyncQuery` reads. -/
structure PollResp where
  status : JVal
  flowsCount : JVal
deriving DecidableEq

/-- `status, _ := poll["status"].(string)` — empty string when absent or
not a string. -/
def pollStatus (p : PollResp) : String :=
  (p.status.asString).getD ""

/-- `flowsCount, _ := poll["flows_count"].(float64)` — zero when absent or
not numeric. -/
def pollFlows (p : PollResp) : Int :=
  (p.flowsCount.asNum).getD 0

/-- Error kinds surfaced by a single async query. -/
inductive QErr where
  | transport
  | badJson
  | noHref
  | timeout
deriving DecidableEq

/-- Outcome of the POST that submits an async query, as `runSingleAsyncQuery`
distinguishes them: a terminal transport/unmarshal error, a 2xx body without
an `href`, or an accepted job. -/
inductive SubmitOutcome where
  | err : QErr → SubmitOutcome
  | noHref : SubmitOutcome
  | accepted : SubmitOutcome

/-- Poll interval: `time.NewTicker(5 * time.Second)`. -/
def pollIntervalSeconds : Nat := 5

/-- Hard deadline: `time.After(5 * time.Minute)`. -/
def pollTimeoutSeconds : Nat := 300

/-- Number of ticker firings before the 5-minute timeout channel fires. -/
def maxPolls : Nat := pollTimeoutSeconds / pollIntervalSeconds

/-- The polling loop of `runSingleAsyncQuery`: each tick issues one GET on
the job href (`respond i` is the backing system's i-th answer: a transport
or unmarshal error, or a body).  On `status == "completed"` it returns
`flowsCount > 0`; when the fuel (ticks until the timeout channel fires) is
exhausted it returns the query-timeout error. -/
def pollLoop (respond : Nat → Except QErr PollResp) : Nat → Nat → Except QErr Bool
  | 0, _ => .error .timeout
  | fuel + 1, i =>
    match respond i with
    | .error e => .error e
    | .ok p =>
      if pollStatus p = "completed" then .ok (decide (0 < pollFlows p))
      else pollLoop respond fuel (i + 1)

/-- `runSingleAsyncQuery`: submit the query, then poll until completed or
timed out. -/
def runSingleAsyncQuery (submit : SubmitOutcome) (respond : Nat → Except QErr PollResp) :
    Except QErr Bool :=
  match submit with
  | .err e => .error e
  | .noHref => .error .noHref
  | .accepted => pollLoop respond maxPolls 0

/-- The two lookback windows of `submitTrafficQuery` (24 hours / 89 days). -/
inductive Window where
  | short
  | long
deriving DecidableEq

/-- One entry of the `services.include` list of a query payload.  Go builds
`{"port": p, "proto": pr}` and adds `"to_port"` only when `sp.ToPort != 0`,
so the range end is an optional field here. -/
structure PortEntry where
  port : Int
  proto : Int
  toPort : Option Int
deriving DecidableEq

/-- The port-filter entry built for one `ServicePort`. -/
def portEntryOf (sp : ServicePort) : PortEntry :=
  { port := sp.port
    proto := sp.proto
    toPort := if sp.toPort = 0 then none else some sp.toPort }

/-- The `services.include` list built by the loop at the top of
`submitTrafficQuery`. -/
def buildPorts (sps : List ServicePort) : List PortEntry :=
  sps.map portEntryOf

/-- `buildDestExclusions`: broadcast first, then multicast, each only when
its flag is set. -/
def buildDestExclusions (broadcast multicast : Bool) : List String :=
  (if broadcast then ["broadcast"] else []) ++ (if multicast then ["multicast"] else [])

/-- The parts of the async-query JSON payload the specification speaks
about.  The remaining payload fields are constants in the source
(`sources`, `sources_destinations_query_op`, `policy_decisions`, ...). -/
structure QueryPayload where
  envHref : String
  appHref : String
  window : Window
  ports : List PortEntry
  destExclusions : List String
  maxResults : Nat
deriving DecidableEq

/-- The payload `submitTrafficQuery` builds for one window. -/
def mkPayload (envHref appHref : String) (service : Service)
    (excludeBroadcast excludeMulticast : Bool) (w : Window) : QueryPayload :=
  { envHref := envHref
    appHref := appHref
    window := w
    ports := buildPorts service.servicePorts
    destExclusions := buildDestExclusions excludeBroadcast excludeMulticast
    maxResults := 1 }

/-- The backing system's behaviour for one submitted async query: the
submission outcome plus the answers to the successive polls. -/
structure AsyncEnv where
  submit : SubmitOutcome
  respond : Nat → Except QErr PollResp

/-- Result of one whole async query run against a given behaviour. -/
def runQueryIn (env : AsyncEnv) : Except QErr Bool :=
  runSingleAsyncQuery env.submit env.respond

/-- `submitTrafficQuery`: run the 24-hour query; on flows or error return
at once; only when it reports zero flows run the 89-day query.  The second
component records the payloads actually submitted, in order — the trace the
control flow of the Go function produces. -/
def submitTrafficQuery (envHref appHref : String) (service : Service)
    (excludeBroadcast excludeMulticast : Bool) (oracle : Window → AsyncEnv) :
    Except QErr Bool × List QueryPayload :=
  let payload := mkPayload envHref appHref service excludeBroadcast excludeMulticast
  match runQueryIn (oracle .short) with
  | .error e => (.error e, [payload .short])
  | .ok true => (.ok false, [payload .short])
  | .ok false =>
    match runQueryIn (oracle .long) with
    | .error e => (.error e, [payload .short, payload .long])
    | .ok true => (.ok false, [payload .short, payload .long])
    | .ok false => (.ok true, [payload .short, payload .long])

/-- A terminal transport-layer failure: `apiRequestWithRetry` exhausted its
retries, or the JSON response failed to unmarshal. -/
inductive TErr where
  | transport
  | badJson
deriving DecidableEq

/-- One entry of the ip_lists listing response. -/
structure IPList where
  href : String
  name : String
deriving DecidableEq

/-- Failure of `getIPListHref`. -/
inductive FetchErr where
  | transport : TErr → FetchErr
  | notFound : String → FetchErr
deriving DecidableEq

/-- `getIPListHref`: given the backing system's (already parsed) listing
response for the name filter, fail when the listing call failed or matched
nothing; otherwise return the href of the FIRST entry (`lists[0].Href`). -/
def getIPListHref (targetName : String) (resp : Except TErr (List IPList)) :
    Except FetchErr String :=
  match resp with
  | .error e => .error (.transport e)
  | .ok [] => .error (.notFound targetName)
  | .ok (l :: _) => .ok l.href

/-- The hard-coded name `main` resolves: `"Any (0.0.0.0/0 and ::/0)"`. -/
def targetIPListName : String := "Any (0.0.0.0/0 and ::/0)"

/-- Deduplication by href in `getWorkloadsForEnv`: Go collects app labels
into a map keyed by href and returns its values.  The map's iteration order
is unspecified in Go; the model fixes the first-occurrence order, on which
no verified claim depends. -/
def dedupByHref (ls : List Label) : List Label :=
  ls.foldl (fun acc l => if acc.any (fun m => m.href == l.href) then acc else acc ++ [l]) []

/-- The app labels of a list of workloads (each given by its label list),
as `getWorkloadsForEnv` extracts them: keep labels with key "app". -/
def collectAppLabels (ws : List (List Label)) : List Label :=
  ws.flatMap (fun labels => labels.filter (fun l => l.key == "app"))

/-- `getWorkloadsForEnv`: fetch the environment's eligible workloads
(`resp` is the backing system's answer), extract the "app" labels and
deduplicate by href.  An empty result is not an error. -/
def getWorkloadsForEnv (resp : Except TErr (List (List Label))) :
    Except TErr (List Label) :=
  match resp with
  | .error e => .error e
  | .ok ws => .ok (dedupByHref (collectAppLabels ws))

/-- Mirrors the local `envInfo` struct of `main`. -/
structure EnvInfo where
  env : Label
  apps : List Label
deriving DecidableEq

/-- Mirrors the Go struct `denyRuleInfo`. -/
structure DenyRuleInfo where
  env : Label
  service : Service
  apps : List Label
deriving DecidableEq

/-- The configuration surface `main` parses: the three flags registered
before `flag.Parse()`. -/
structure Config where
  excludeBroadcast : Bool
  excludeMulticast : Bool
  verbose : Bool
deriving DecidableEq

/-- Capacity of the verification semaphore: `sem := make(chan struct\x7b\x7d, 2)`.
The literal 2 is the only source of this value. -/
def semCapacity : Nat := 2

/-- The semaphore capacity `main` uses under a given configuration.  No
parsed flag feeds the capacity — the channel is built with the literal 2 —
so the value is the same constant for every configuration. -/
def concurrencyCapOf (_ : Config) : Nat := semCapacity

/-- The backing system's behaviour for one whole run: one field per
distinct HTTP interaction of `main` and its callees. -/
structure Oracles where
  envsR : Except TErr (List Label)
  servicesR : Except TErr (List Service)
  rulesetR : Except TErr String
  ipListsR : Except TErr (List IPList)
  workloadsR : Label → Except TErr (List (List Label))
  trafficR : String → String → Service → Window → AsyncEnv
  createRuleR : DenyRuleInfo → Except TErr Unit

instance (α β : Type) [DecidableEq α] [DecidableEq β] : DecidableEq (Except α β) := fun a b =>
  match a, b with
  | .ok x, .ok y => decidable_of_iff (x = y) (by simp)
  | .error e, .error f => decidable_of_iff (e = f) (by simp)
  | .ok _, .error _ => isFalse (by simp)
  | .error _, .ok _ => isFalse (by simp)

/-- The verification outcome `main` receives for one
(environment, application, service) triple — the first component of
`submitTrafficQuery`. -/
def verifyTriple (cfg : Config) (o : Oracles) (envHref appHref : String)
    (svc : Service) : Except QErr Bool :=
  (submitTrafficQuery envHref appHref svc cfg.excludeBroadcast cfg.excludeMulticast
    (o.trafficR envHref appHref svc)).1

/-- The `appsNoTraffic` accumulator of one (environment, service) group
after the join: exactly the applications whose verification returned
(true, nil).  Errors are logged and skipped; (false, nil) is skipped. -/
def appsNoTrafficOf (cfg : Config) (o : Oracles) (ei : EnvInfo) (svc : Service) :
    List Label :=
  ei.apps.filter (fun a =>
    decide (verifyTriple cfg o ei.env.href a.href svc = Except.ok true))

/-- The `denyRules` list after all groups joined: one entry per
(environment, service) group whose no-traffic set is non-empty, in group
order. -/
def denyRulesOf (cfg : Config) (o : Oracles) (envInfos : List EnvInfo)
    (services : List Service) : List DenyRuleInfo :=
  envInfos.flatMap (fun ei => services.filterMap (fun svc =>
    let nt := appsNoTrafficOf cfg o ei svc
    if nt.isEmpty then none else some { env := ei.env, service := svc, apps := nt }))

/-- The `envInfos` list built by `main`: environments whose workload fetch
failed are skipped (logged under verbose only), as are environments with an
empty application set. -/
def envInfosOf (envs : List Label) (workloadsR : Label → Except TErr (List (List Label))) :
    List EnvInfo :=
  envs.filterMap (fun env =>
    match getWorkloadsForEnv (workloadsR env) with
    | .error _ => none
    | .ok apps => if apps.isEmpty then none else some { env := env, apps := apps })

/-- `totalQueries`: the sum over the retained environments of
`len(services) * len(ei.apps)`, computed before any query is launched. -/
def totalQueriesOf (services : List Service) (envInfos : List EnvInfo) : Nat :=
  (envInfos.map (fun ei => services.length * ei.apps.length)).sum

/-- The (environment, service, application) triples for which `main`
launches a verification goroutine, in launch order. -/
def queriesIssued (services : List Service) (envInfos : List EnvInfo) :
    List (Label × Service × Label) :=
  envInfos.flatMap (fun ei => services.flatMap (fun svc =>
    ei.apps.map (fun a => (ei.env, svc, a))))

/-- A fatal error of `main`: one of the `log.Fatalf` sites. -/
inductive FatalErr where
  | loadEnvs : TErr → FatalErr
  | loadServices : TErr → FatalErr
  | createRuleset : TErr → FatalErr
  | resolveIPList : FetchErr → FatalErr
deriving DecidableEq

/-- What a completed run of `main` produced.  `earlyExit` is the
"No queries to run - exiting." return, taken before the IP list is
resolved; `ruleResults` pairs each synthesized deny rule with the outcome
of its creation POST. -/
structure RunResult where
  rulesetHref : String
  envInfos : List EnvInfo
  totalQueries : Nat
  earlyExit : Bool
  ipListHref : Option String
  denyRules : List DenyRuleInfo
  ruleResults : List (DenyRuleInfo × Except TErr Unit)

/-- Sequential denotation of `main` after flag parsing, in source order:
load environments (fatal on error), load risky services (fatal), create the
rule set (fatal), build `envInfos` (per-environment errors skip that
environment), precompute `totalQueries` and exit early when zero, resolve
the Any IP list (fatal), verify every triple group by group, then attempt
rule creation per finding (failures logged, remaining findings still
attempted).  The sequential order is faithful because every group's
goroutines join (`wg.Wait()`) before the next group starts and rule
creation starts only after the loops. -/
def runMain (cfg : Config) (o : Oracles) : Except FatalErr RunResult :=
  match o.envsR with
  | .error e => .error (.loadEnvs e)
  | .ok envs =>
    match o.servicesR with
    | .error e => .error (.loadServices e)
    | .ok services =>
      match o.rulesetR with
      | .error e => .error (.createRuleset e)
      | .ok rulesetHref =>
        let envInfos := envInfosOf envs o.workloadsR
        let total := totalQueriesOf services envInfos
        if total = 0 then
          .ok { rulesetHref := rulesetHref, envInfos := envInfos, totalQueries := 0,
                earlyExit := true, ipListHref := none, denyRules := [], ruleResults := [] }
        else
          match getIPListHref targetIPListName o.ipListsR with
          | .error e => .error (.resolveIPList e)
          | .ok ipHref =>
            let denyRules := denyRulesOf cfg o envInfos services
            .ok { rulesetHref := rulesetHref, envInfos := envInfos, totalQueries := total,
                  earlyExit := false, ipListHref := some ipHref, denyRules := denyRules,
                  ruleResults := denyRules.map (fun dr => (dr, o.createRuleR dr)) }

/-- One (environment, service) group of the fan-out: the inner double loop
of `main` processes these in order, launching one verification task per
application. -/
structure GroupSpec where
  env : Label
  service : Service
  apps : List Label
deriving DecidableEq

/-- The group sequence of a run: environments outermost, services inner,
exactly the nesting of `main`'s loops. -/
def mkGroups (envInfos : List EnvInfo) (services : List Service) : List GroupSpec :=
  envInfos.flatMap (fun ei => services.map (fun svc =>
    { env := ei.env, service := svc, apps := ei.apps }))

/-- The verification outcome of one task as `main` consumes it:
(true, nil) appends the app to `appsNoTraffic`; (false, nil) and errors do
not (errors are logged). -/
inductive Outcome where
  | noTraffic
  | hasTraffic
  | fail
deriving DecidableEq

/-- One finalized group finding, identified by its group index together
with the indices of its no-traffic applications. -/
structure Finding where
  group : Nat
  noTrafficApps : List Nat
deriving DecidableEq

/-- Number of applications of group `g` of the program. -/
def appsCountAt (prog : List GroupSpec) (g : Nat) : Nat :=
  ((prog.get? g).map (fun gs => gs.apps.length)).getD 0

/-- A state of the orchestration machine.  `running` holds the
(group, app) indices of the in-flight goroutines (each holds one semaphore
slot from just before `go` until after its deferred release); `launched`
counts how many tasks of the current group have been started; `outcomes`
records the reported results; `denyRules` are the findings appended after
each group's `wg.Wait()`; `createdCount` counts the deny-rule creation
POSTs issued after the loops. -/
structure OrchState where
  curGroup : Nat
  launched : Nat
  running : List (Nat × Nat)
  outcomes : Nat → Nat → Option Outcome
  denyRules : List Finding
  createdCount : Nat
  totalQueries : Nat
  doneQueries : Nat

/-- The initial state: nothing launched, `totalQueries` precomputed from
the program. -/
def initState (prog : List GroupSpec) : OrchState :=
  { curGroup := 0
    launched := 0
    running := []
    outcomes := fun _ _ => none
    denyRules := []
    createdCount := 0
    totalQueries := (prog.map (fun gs => gs.apps.length)).sum
    doneQueries := 0 }

/-- The finding appended for group `g` at its join point: the indices of
the applications whose outcome was (true, nil); nothing is appended when
that set is empty. -/
def groupFinding (prog : List GroupSpec) (g : Nat) (out : Nat → Nat → Option Outcome) :
    List Finding :=
  let nt := (List.range (appsCountAt prog g)).filter (fun j => out g j == some .noTraffic)
  if nt.isEmpty then [] else [{ group := g, noTrafficApps := nt }]

/-- The transitions of `main`'s fan-out.  `launch` models
`wg.Add(1); sem <- ...; go ...`: it blocks unless a semaphore slot is
free, so it requires fewer than `semCapacity` tasks in flight.  `finish`
models a goroutine completing with some outcome and releasing its slot.
`finalize` models `wg.Wait()` plus the conditional append to `denyRules`:
it requires every task of the group launched and none in flight.  `create`
models one deny-rule creation POST, possible only after all groups are
done.  Scheduling and outcomes are unconstrained otherwise — the machine
is nondeterministic where the program is. -/
inductive Step (prog : List GroupSpec) : OrchState → OrchState → Prop
  | launch (s : OrchState)
      (h1 : s.curGroup < prog.length)
      (h2 : s.launched < appsCountAt prog s.curGroup)
      (h3 : s.running.length < semCapacity) :
      Step prog s { s with
        launched := s.launched + 1
        running := (s.curGroup, s.launched) :: s.running }
  | finish (s : OrchState) (t : Nat × Nat) (out : Outcome)
      (h : t ∈ s.running) :
      Step prog s { s with
        running := s.running.erase t
        outcomes := fun g j => if g = t.1 ∧ j = t.2 then some out else s.outcomes g j
        doneQueries := s.doneQueries + 1 }
  | finalize (s : OrchState)
      (h1 : s.curGroup < prog.length)
      (h2 : s.launched = appsCountAt prog s.curGroup)
      (h3 : s.running = []) :
      Step prog s { s with
        curGroup := s.curGroup + 1
        launched := 0
        denyRules := s.denyRules ++ groupFinding prog s.curGroup s.outcomes }
  | create (s : OrchState)
      (h1 : s.curGroup = prog.length)
      (h2 : s.createdCount < s.denyRules.length) :
      Step prog s { s with createdCount := s.createdCount + 1 }

/-- The states one run of the orchestration can pass through. -/
inductive Reachable (prog : List GroupSpec) : OrchState → Prop
  | init : Reachable prog (initState prog)
  | step {s t : OrchState} : Reachable prog s → Step prog s t → Reachable prog t

/-- The condition under which `main` reaches its final log line instead of
a `log.Fatalf`: the three catalog calls succeed and, unless the run exits
early for lack of queries, the Any IP list resolves. -/
def catalogOk (o : Oracles) : Prop :=
  match o.envsR, o.servicesR, o.rulesetR with
  | .ok envs, .ok services, .ok _ =>
    totalQueriesOf services (envInfosOf envs o.workloadsR) = 0 ∨
    (getIPListHref targetIPListName o.ipListsR).isOk = true
  | _, _, _ => False

/-! Concrete data used to instantiate the theorems below. -/

def envA : Label := { href := "/env/a", key := "env", value := "PROD" }

def envB : Label := { href := "/env/b", key := "env", value := "DEV" }

def appW : Label := { href := "/app/w", key := "app", value := "web" }

def appD : Label := { href := "/app/d", key := "app", value := "db" }

def svcRDP : Service :=
  { href := "/svc/rdp", name := "RDP",
    servicePorts := [{ port := 3389, proto := 6, toPort := 0 }] }

def svcNoPorts : Service := { href := "/svc/np", name := "noports", servicePorts := [] }

def spZero : ServicePort := { port := 137, proto := 17, toPort := 0 }

def spRange : ServicePort := { port := 135, proto := 6, toPort := 139 }

def svcWins : Service :=
  { href := "/svc/wins", name := "WINS", servicePorts := [spZero, spRange] }

def ipAny : IPList := { href := "/ip_lists/any", name := targetIPListName }

def ipAny2 : IPList := { href := "/ip_lists/any2", name := targetIPListName }

def cfg0 : Config := { excludeBroadcast := false, excludeMulticast := false, verbose := false }

/-- A completed poll response reporting `n` flows. -/
def envCompleted (n : Int) : AsyncEnv :=
  { submit := .accepted
    respond := fun _ => Except.ok { status := .str "completed", flowsCount := .num n } }

/-- A backing system whose job never leaves the pending state. -/
def respondPending : Nat → Except QErr PollResp :=
  fun _ => Except.ok { status := .str "pending", flowsCount := .jnull }

/-- A completed poll response with no numeric flows_count field. -/
def completedNull : PollResp := { status := .str "completed", flowsCount := .jnull }

def eiB : EnvInfo := { env := envB, apps := [appW, appD] }

/-- A run in which environment `/env/a`'s workload listing fails while
everything else succeeds with zero observed flows. -/
def oraclesSkip : Oracles :=
  { envsR := .ok [envA, envB]
    servicesR := .ok [svcRDP]
    rulesetR := .ok "/rule_sets/1"
    ipListsR := .ok [ipAny]
    workloadsR := fun env => if env.href = "/env/a" then .error .transport else .ok [[appW]]
    trafficR := fun _ _ _ _ => envCompleted 0
    createRuleR := fun _ => .ok () }

/-- A run in which the verification of app `/app/w` fails with a transport
error while its sibling `/app/d` verifies as no-traffic. -/
def oraclesMixed : Oracles :=
  { envsR := .ok [envB]
    servicesR := .ok [svcRDP]
    rulesetR := .ok "/rule_sets/1"
    ipListsR := .ok [ipAny]
    workloadsR := fun _ => .ok [[appW], [appD]]
    trafficR := fun _ appHref _ _ =>
      if appHref = "/app/w" then
        { submit := .err .transport, respond := respondPending }
      else envCompleted 0
    createRuleR := fun _ => .ok () }

/-- A run whose environment listing fails terminally. -/
def oraclesEnvsFail : Oracles :=
  { envsR := .error .transport
    servicesR := .ok []
    rulesetR := .ok ""
    ipListsR := .ok []
    workloadsR := fun _ => .ok []
    trafficR := fun _ _ _ _ => envCompleted 0
    createRuleR := fun _ => .ok () }

/-- Workload listings where `/env/a` has no eligible workloads. -/
def wEmpty : Label → Except TErr (List (List Label)) :=
  fun env => if env.href = "/env/a" then .ok [] else .ok [[appW]]

/-- A one-group program for the orchestration machine. -/
def prog1 : List GroupSpec := [{ env := envB, service := svcRDP, apps := [appW] }]

/-- Outcomes of `prog1` after its single task reports no traffic. -/
def outc1 : Nat → Nat → Option Outcome :=
  fun g j => if g = 0 ∧ j = 0 then some Outcome.noTraffic else none

/-- The state of the machine on `prog1` after launching its single task. -/
def stLaunched : OrchState :=
  { curGroup := 0
    launched := 1
    running := [(0, 0)]
    outcomes := fun _ _ => none
    denyRules := []
    createdCount := 0
    totalQueries := 1
    doneQueries := 0 }

/-- ... after that task finished with a no-traffic outcome. -/
def stFinished : OrchState :=
  { stLaunched with running := [], outcomes := outc1, doneQueries := 1 }

/-- ... after the group joined and its finding was appended. -/
def stJoined : OrchState :=
  { stFinished with
      curGroup := 1
      launched := 0
      denyRules := [{ group := 0, noTrafficApps := [0] }] }

/-- ... after the one deny-rule creation request was issued. -/
def stCreated : OrchState := { stJoined with createdCount := 1 }

/-- The inductive invariant of the orchestration machine: the semaphore
bound, that in-flight tasks belong to the current group and were launched,
that every task of a finished group (and every joined task of the current
one) has a recorded outcome, that findings only exist for finished groups,
that creation only happens once every group is done, and that the
precomputed total is never revised. -/
structure OrchInv (prog : List GroupSpec) (s : OrchState) : Prop where
  run_bound : s.running.length ≤ semCapacity
  run_cur : ∀ t ∈ s.running, t.1 = s.curGroup ∧ t.2 < s.launched
  cur_le : s.curGroup ≤ prog.length
  done_prev : ∀ g, g < s.curGroup → ∀ j, j < appsCountAt prog g → (s.outcomes g j).isSome
  done_launched : ∀ j, j < s.launched → (s.curGroup, j) ∉ s.running →
    (s.outcomes s.curGroup j).isSome
  findings_resolved : ∀ f ∈ s.denyRules, f.group < s.curGroup
  created_groups_done : 0 < s.createdCount → s.curGroup = prog.length
  total_fixed : s.totalQueries = (prog.map (fun gs => gs.apps.length)).sum

theorem inv_init (prog : List GroupSpec) : OrchInv prog (initState prog) := by
  refine ⟨?_, ?_, ?_, ?_, ?_, ?_, ?_, ?_⟩ <;> simp [initState, semCapacity]

theorem inv_step {prog : List GroupSpec} {s t : OrchState}
    (hs : OrchInv prog s) (hstep : Step prog s t) : OrchInv prog t := by
  cases hstep with
  | launch h1 h2 h3 =>
    refine ⟨?_, ?_, ?_, ?_, ?_, ?_, ?_, ?_⟩ <;> dsimp only
    · simp only [List.length_cons]
      exact h3
    · intro t ht
      rcases List.mem_cons.mp ht with h | h
      · subst h; exact ⟨rfl, Nat.lt_succ_self _⟩
      · obtain ⟨hg, hj⟩ := hs.run_cur t h
        exact ⟨hg, Nat.lt_succ_of_lt hj⟩
    · exact hs.cur_le
    · exact hs.done_prev
    · intro j hj hnot
      by_cases hje : j = s.launched
      · exact absurd (hje ▸ List.mem_cons_self _ _) hnot
      · have hj2 : j < s.launched := by omega
        have hnot2 : (s.curGroup, j) ∉ s.running := fun hmem =>
          hnot (List.mem_cons_of_mem _ hmem)
        exact hs.done_launched j hj2 hnot2
    · exact hs.findings_resolved
    · exact hs.created_groups_done
    · exact hs.total_fixed
  | finish tk out h =>
    refine ⟨?_, ?_, ?_, ?_, ?_, ?_, ?_, ?_⟩ <;> dsimp only
    · exact le_trans (List.erase_sublist tk s.running).length_le hs.run_bound
    · exact fun t ht => hs.run_cur t (List.mem_of_mem_erase ht)
    · exact hs.cur_le
    · intro g hg j hj
      by_cases hc : g = tk.1 ∧ j = tk.2
      · simp [hc]
      · simpa [hc] using hs.done_prev g hg j hj
    · intro j hj hnot
      by_cases hc : (s.curGroup, j) = tk
      · have hc2 : s.curGroup = tk.1 ∧ j = tk.2 := Prod.ext_iff.mp hc
        simp [hc2]
      · have hne : ¬(s.curGroup = tk.1 ∧ j = tk.2) := fun hand =>
          hc (Prod.ext_iff.mpr hand)
        have hnot2 : (s.curGroup, j) ∉ s.running := fun hmem =>
          hnot ((List.mem_erase_of_ne hc).mpr hmem)
        simpa [hne] using hs.done_launched j hj hnot2
    · exact hs.findings_resolved
    · exact hs.created_groups_done
    · exact hs.total_fixed
  | finalize h1 h2 h3 =>
    refine ⟨?_, ?_, ?_, ?_, ?_, ?_, ?_, ?_⟩ <;> dsimp only
    · exact hs.run_bound
    · intro t ht
      rw [h3] at ht
      cases ht
    · exact Nat.succ_le_of_lt h1
    · intro g hg j hj
      by_cases hge : g = s.curGroup
      · subst hge
        exact hs.done_launched j (by omega) (by simp [h3])
      · exact hs.done_prev g (by omega) j hj
    · intro j hj
      exact absurd hj (Nat.not_lt_zero j)
    · intro f hf
      rcases List.mem_append.mp hf with hmem | hmem
      · exact Nat.lt_succ_of_lt (hs.findings_resolved f hmem)
      · simp only [groupFinding] at hmem
        split at hmem
        · cases hmem
        · rw [List.mem_singleton] at hmem
          subst hmem
          exact Nat.lt_succ_self _
    · intro hc
      have := hs.created_groups_done hc
      omega
    · exact hs.total_fixed
  | create h1 h2 =>
    exact ⟨hs.run_bound, hs.run_cur, hs.cur_le, hs.done_prev, hs.done_launched,
      hs.findings_resolved, fun _ => h1, hs.total_fixed⟩

theorem inv_reachable {prog : List GroupSpec} {s : OrchState}
    (h : Reachable prog s) : OrchInv prog s := by
  induction h with
  | init => exact inv_init prog
  | step _ hst ih => exact inv_step ih hst

theorem pollLoop_completes {respond : Nat → Except QErr PollResp} {i fuel : Nat}
    {p : PollResp} (h : respond i = Except.ok p) (hc : pollStatus p = "completed") :
    pollLoop respond (fuel + 1) i = .ok (decide (0 < pollFlows p)) := by
  simp [pollLoop, h, hc]

theorem pollLoop_err_of_no_complete {respond : Nat → Except QErr PollResp}
    (h : ∀ i p, respond i = Except.ok p → pollStatus p ≠ "completed") :
    ∀ fuel i, ∃ e, pollLoop respond fuel i = .error e := by
  intro fuel
  induction fuel with
  | zero => exact fun i => ⟨.timeout, rfl⟩
  | succ n ih =>
    intro i
    rcases hr : respond i with e | p
    · exact ⟨e, by simp [pollLoop, hr]⟩
    · have := h i p hr
      simpa [pollLoop, hr, this] using ih (i + 1)

theorem pollLoop_timeout_of_pending {respond : Nat → Except QErr PollResp}
    (h : ∀ i p, respond i = Except.ok p → pollStatus p ≠ "completed")
    (h2 : ∀ i, ∃ p, respond i = Except.ok p) :
    ∀ fuel i, pollLoop respond fuel i = .error .timeout := by
  intro fuel
  induction fuel with
  | zero => exact fun i => rfl
  | succ n ih =>
    intro i
    obtain ⟨p, hp⟩ := h2 i
    have := h i p hp
    simpa [pollLoop, hp, this] using ih (i + 1)

theorem length_queriesIssued (services : List Service) (envInfos : List EnvInfo) :
    (queriesIssued services envInfos).length = totalQueriesOf services envInfos := by
  induction envInfos with
  | nil => rfl
  | cons ei rest ih =>
    simp only [queriesIssued, totalQueriesOf, List.flatMap_cons, List.length_append,
      List.map_cons, List.sum_cons] at ih ⊢
    rw [ih]
    congr 1
    rw [List.length_flatMap]
    simp [Function.comp_def, List.map_const]

theorem total_mkGroups (envInfos : List EnvInfo) (services : List Service) :
    ((mkGroups envInfos services).map (fun gs => gs.apps.length)).sum =
      totalQueriesOf services envInfos := by
  induction envInfos with
  | nil => rfl
  | cons ei rest ih =>
    simp only [mkGroups, totalQueriesOf, List.flatMap_cons, List.map_append,
      List.sum_append, List.map_cons, List.sum_cons] at ih ⊢
    rw [ih]
    congr 1
    rw [List.map_map]
    simp [Function.comp_def, List.map_const, Nat.mul_comm]

theorem envInfosOf_spec {envs : List Label} {w : Label → Except TErr (List (List Label))}
    {ei : EnvInfo} (h : ei ∈ envInfosOf envs w) :
    ei.env ∈ envs ∧ getWorkloadsForEnv (w ei.env) = .ok ei.apps ∧ ei.apps ≠ [] := by
  obtain ⟨env, henv, hsome⟩ := List.mem_filterMap.mp h
  rcases hw : getWorkloadsForEnv (w env) with e | apps
  · rw [hw] at hsome
    cases hsome
  · rw [hw] at hsome
    by_cases he : apps.isEmpty
    · simp [he] at hsome
    · simp only [he, Bool.false_eq_true, if_neg, not_false_eq_true,
        Option.some.injEq] at hsome
      subst hsome
      exact ⟨henv, hw, (List.isEmpty_eq_false).mp (Bool.not_eq_true _ ▸ by
        simpa using he)⟩

theorem mem_queriesIssued {services : List Service} {envInfos : List EnvInfo}
    {q : Label × Service × Label} (h : q ∈ queriesIssued services envInfos) :
    ∃ ei ∈ envInfos, q.1 = ei.env := by
  obtain ⟨ei, hei, hq⟩ := List.mem_flatMap.mp h
  obtain ⟨svc, _, hq2⟩ := List.mem_flatMap.mp hq
  obtain ⟨a, _, hq3⟩ := List.mem_map.mp hq2
  exact ⟨ei, hei, by rw [← hq3]⟩

theorem mem_appsNoTrafficOf {cfg : Config} {o : Oracles} {ei : EnvInfo} {svc : Service}
    {a : Label} :
    a ∈ appsNoTrafficOf cfg o ei svc ↔
      a ∈ ei.apps ∧ verifyTriple cfg o ei.env.href a.href svc = Except.ok true := by
  simp [appsNoTrafficOf]

theorem mem_denyRulesOf_of {cfg : Config} {o : Oracles} {envInfos : List EnvInfo}
    {services : List Service} {ei : EnvInfo} {svc : Service}
    (hei : ei ∈ envInfos) (hsvc : svc ∈ services)
    (hnt : appsNoTrafficOf cfg o ei svc ≠ []) :
    ({ env := ei.env, service := svc, apps := appsNoTrafficOf cfg o ei svc } : DenyRuleInfo) ∈
      denyRulesOf cfg o envInfos services := by
  refine List.mem_flatMap.mpr ⟨ei, hei, List.mem_filterMap.mpr ⟨svc, hsvc, ?_⟩⟩
  simp only [List.isEmpty_eq_false.mpr hnt]
  rfl

theorem runMain_isOk_iff (cfg : Config) (o : Oracles) :
    (∃ r, runMain cfg o = .ok r) ↔ catalogOk o := by
  rcases he : o.envsR with e | envs
  · simp [runMain, catalogOk, he]
  · rcases hsv : o.servicesR with e | services
    · simp [runMain, catalogOk, he, hsv]
    · rcases hrs : o.rulesetR with e | rh
      · simp [runMain, catalogOk, he, hsv, hrs]
      · by_cases ht : totalQueriesOf services (envInfosOf envs o.workloadsR) = 0
        · simp [runMain, catalogOk, he, hsv, hrs, ht]
        · rcases hip : getIPListHref targetIPListName o.ipListsR with e | iph
          · simp [runMain, catalogOk, he, hsv, hrs, ht, hip, Except.isOk, Except.toBool]
          · simp [runMain, catalogOk, he, hsv, hrs, ht, hip, Except.isOk, Except.toBool]

theorem runMain_ok_ruleResults {cfg : Config} {o : Oracles} {r : RunResult}
    (h : runMain cfg o = .ok r) : r.ruleResults.map Prod.fst = r.denyRules := by
  unfold runMain at h
  rcases he : o.envsR with e | envs <;> rw [he] at h
  · cases h
  rcases hsv : o.servicesR with e | services <;> rw [hsv] at h
  · cases h
  rcases hrs : o.rulesetR with e | rh <;> rw [hrs] at h
  · cases h
  simp only at h
  by_cases ht : totalQueriesOf services (envInfosOf envs o.workloadsR) = 0
  · rw [if_pos ht] at h
    cases h
    rfl
  · rw [if_neg ht] at h
    rcases hip : getIPListHref targetIPListName o.ipListsR with e | iph <;> rw [hip] at h
    · cases h
    · cases h
      simp [List.map_map, Function.comp_def]

theorem reach_stCreated : Reachable prog1 stCreated := by
  have h0 : Reachable prog1 (initState prog1) := Reachable.init
  have h1 : Reachable prog1 stLaunched :=
    h0.step (show Step prog1 (initState prog1) stLaunched from
      Step.launch _ (by decide) (by decide) (by decide))
  have h2 : Reachable prog1 stFinished :=
    h1.step (show Step prog1 stLaunched stFinished from
      Step.finish _ (0, 0) Outcome.noTraffic (by decide))
  have h3 : Reachable prog1 stJoined :=
    h2.step (show Step prog1 stFinished stJoined from
      Step.finalize _ (by decide) (by decide) (by decide))
  exact h3.step (show Step prog1 stJoined stCreated from
    Step.create _ (by decide) (by decide))

/-- C1: `submitTrafficQuery` returns (true, nil) exactly when both the
24-hour and the 89-day query complete reporting zero flows; whenever the
24-hour query completes with a positive flow count it returns (false, nil)
at once and only the short-window payload is ever submitted — the 89-day
query is never issued. -/
theorem submitTrafficQuery_short_circuit (envHref appHref : String) (service : Service)
    (eb em : Bool) (oracle : Window → AsyncEnv) :
    ((submitTrafficQuery envHref appHref service eb em oracle).1 = .ok true ↔
      runQueryIn (oracle .short) = .ok false ∧ runQueryIn (oracle .long) = .ok false) ∧
    (runQueryIn (oracle .short) = .ok true →
      (submitTrafficQuery envHref appHref service eb em oracle).1 = .ok false ∧
      (submitTrafficQuery envHref appHref service eb em oracle).2 =
        [mkPayload envHref appHref service eb em .short]) := by
  rcases hs : runQueryIn (oracle .short) with e | b
  · simp [submitTrafficQuery, hs]
  · cases b
    · rcases hl : runQueryIn (oracle .long) with e | b2
      · simp [submitTrafficQuery, hs, hl]
      · cases b2 <;> simp [submitTrafficQuery, hs, hl]
    · simp [submitTrafficQuery, hs]

/-- C1 witness: a backing system reporting 5 flows in the 24-hour window. -/
theorem submitTrafficQuery_short_circuit_witness :
    runQueryIn (envCompleted 5) = .ok true ∧
    (submitTrafficQuery "/env/b" "/app/w" svcRDP false false (fun _ => envCompleted 5)).1 =
      .ok false ∧
    (submitTrafficQuery "/env/b" "/app/w" svcRDP false false (fun _ => envCompleted 5)).2 =
      [mkPayload "/env/b" "/app/w" svcRDP false false .short] :=
  have h : runQueryIn (envCompleted 5) = .ok true := rfl
  have h2 := (submitTrafficQuery_short_circuit "/env/b" "/app/w" svcRDP false false
    (fun _ => envCompleted 5)).2 h
  ⟨h, h2.1, h2.2⟩

/-- C2: in every reachable state of the orchestration, every appended
finding's group already has a recorded verification outcome for each of its
applications, and once any deny-rule creation request has been issued every
group of the run is finalized and fully resolved. -/
theorem joinBarrier (prog : List GroupSpec) (s : OrchState) (h : Reachable prog s) :
    (∀ f ∈ s.denyRules, ∀ j, j < appsCountAt prog f.group →
      (s.outcomes f.group j).isSome = true) ∧
    (0 < s.createdCount → s.curGroup = prog.length ∧
      ∀ g, g < prog.length → ∀ j, j < appsCountAt prog g →
        (s.outcomes g j).isSome = true) := by
  have hi := inv_reachable h
  constructor
  · intro f hf j hj
    exact hi.done_prev f.group (hi.findings_resolved f hf) j hj
  · intro hc
    have hcur := hi.created_groups_done hc
    exact ⟨hcur, fun g hg j hj => hi.done_prev g (by omega) j hj⟩

/-- C2 witness: a full run of the one-group program. -/
theorem joinBarrier_witness :
    (stCreated.outcomes 0 0).isSome = true ∧ stCreated.curGroup = prog1.length :=
  ⟨(joinBarrier prog1 stCreated reach_stCreated).1 { group := 0, noTrafficApps := [0] }
      (by decide) 0 (by decide),
   ((joinBarrier prog1 stCreated reach_stCreated).2 (by decide)).1⟩

/-- C3: the poll loop runs on a 5-second ticker against a 5-minute
deadline; when no poll ever reports status completed the call returns an
error — exactly the query-timeout error when polling itself keeps
succeeding — and never the no-traffic result (ok true). -/
theorem queryTimeout_surfaced (respond : Nat → Except QErr PollResp)
    (h : ∀ i p, respond i = Except.ok p → pollStatus p ≠ "completed") :
    pollIntervalSeconds = 5 ∧ pollTimeoutSeconds = 300 ∧
    maxPolls = pollTimeoutSeconds / pollIntervalSeconds ∧
    (∀ submit, ∃ e, runSingleAsyncQuery submit respond = .error e) ∧
    ((∀ i, ∃ p, respond i = Except.ok p) →
      runSingleAsyncQuery .accepted respond = .error .timeout) ∧
    (∀ submit, runSingleAsyncQuery submit respond ≠ .ok true) := by
  have herr : ∀ submit, ∃ e, runSingleAsyncQuery submit respond = .error e := by
    intro submit
    cases submit with
    | err e => exact ⟨e, rfl⟩
    | noHref => exact ⟨.noHref, rfl⟩
    | accepted => exact pollLoop_err_of_no_complete h maxPolls 0
  refine ⟨rfl, rfl, rfl, herr, ?_, ?_⟩
  · intro h2
    exact pollLoop_timeout_of_pending h h2 maxPolls 0
  · intro submit hok
    obtain ⟨e, he⟩ := herr submit
    rw [hok] at he
    cases he

/-- C3 witness: a job that stays pending forever. -/
theorem queryTimeout_surfaced_witness :
    runSingleAsyncQuery .accepted respondPending = .error .timeout := by
  have h : ∀ i p, respondPending i = Except.ok p → pollStatus p ≠ "completed" := by
    intro i p hp
    injection hp with h2
    rw [← h2]
    decide
  exact (queryTimeout_surfaced respondPending h).2.2.2.2.1 (fun i => ⟨_, rfl⟩)

/-- C4: an application whose verification errors is excluded from the
group's no-traffic set, every sibling that verified as no-traffic is still
included, every group with a non-empty no-traffic set still yields its
finding, and the run's success is unaffected by verification outcomes (it
hinges only on the catalog phase). -/
theorem verifyError_contained (cfg : Config) (o : Oracles) (ei : EnvInfo) (svc : Service)
    (a : Label) (e : QErr)
    (herr : verifyTriple cfg o ei.env.href a.href svc = .error e) :
    a ∉ appsNoTrafficOf cfg o ei svc ∧
    (∀ b ∈ ei.apps, verifyTriple cfg o ei.env.href b.href svc = Except.ok true →
      b ∈ appsNoTrafficOf cfg o ei svc) ∧
    (∀ envInfos services (ei2 : EnvInfo) (svc2 : Service), ei2 ∈ envInfos →
      svc2 ∈ services → appsNoTrafficOf cfg o ei2 svc2 ≠ [] →
      ({ env := ei2.env, service := svc2, apps := appsNoTrafficOf cfg o ei2 svc2 } :
        DenyRuleInfo) ∈ denyRulesOf cfg o envInfos services) ∧
    ((∃ r, runMain cfg o = .ok r) ↔ catalogOk o) := by
  refine ⟨?_, ?_, ?_, runMain_isOk_iff cfg o⟩
  · intro hmem
    have hv := (mem_appsNoTrafficOf.mp hmem).2
    rw [herr] at hv
    cases hv
  · exact fun b hb hok => mem_appsNoTrafficOf.mpr ⟨hb, hok⟩
  · exact fun envInfos services ei2 svc2 h1 h2 h3 => mem_denyRulesOf_of h1 h2 h3

/-- C4 witness: app `/app/w` errors with a transport failure while its
sibling `/app/d` is still recorded as no-traffic. -/
theorem verifyError_contained_witness :
    verifyTriple cfg0 oraclesMixed eiB.env.href appW.href svcRDP = .error .transport ∧
    appW ∉ appsNoTrafficOf cfg0 oraclesMixed eiB svcRDP ∧
    appD ∈ appsNoTrafficOf cfg0 oraclesMixed eiB svcRDP :=
  ⟨rfl,
   (verifyError_contained cfg0 oraclesMixed eiB svcRDP appW .transport rfl).1,
   (verifyError_contained cfg0 oraclesMixed eiB svcRDP appW .transport rfl).2.1 appD
     (by decide) rfl⟩

/-- C5 counterexample: the semaphore capacity is the literal 2 regardless
of configuration — no flag of the parsed configuration surface feeds it, so
it is not a configurable cap. -/
theorem concurrencyCap_not_configurable :
    concurrencyCapOf { excludeBroadcast := true, excludeMulticast := true, verbose := true } =
      concurrencyCapOf cfg0 ∧
    concurrencyCapOf cfg0 = 2 := ⟨rfl, rfl⟩

/-- C5 (amended): in every reachable state at most 2 verification tasks
are in flight — the bound is global across the whole run — but the bound is
the hard-coded constant 2, identical under every configuration, not a
configurable cap. -/
theorem concurrencyBound_hardcoded (prog : List GroupSpec) (s : OrchState)
    (h : Reachable prog s) :
    s.running.length ≤ semCapacity ∧ semCapacity = 2 ∧
    ∀ c : Config, concurrencyCapOf c = 2 :=
  ⟨(inv_reachable h).run_bound, rfl, fun _ => rfl⟩

/-- C5 witness: the bound holds at the initial state of the one-group
program. -/
theorem concurrencyBound_hardcoded_witness :
    (initState prog1).running.length ≤ semCapacity ∧ semCapacity = 2 :=
  ⟨(concurrencyBound_hardcoded prog1 (initState prog1) Reachable.init).1,
   (concurrencyBound_hardcoded prog1 (initState prog1) Reachable.init).2.1⟩

/-- C6 counterexample: environment `/env/a`'s application-set load fails
with a transport error, yet the run is not terminated — it completes,
skips that environment, and still verifies and synthesizes for `/env/b`. -/
theorem loadAppSet_failure_not_fatal :
    oraclesSkip.workloadsR envA = .error .transport ∧
    runMain cfg0 oraclesSkip = .ok
      { rulesetHref := "/rule_sets/1"
        envInfos := [{ env := envB, apps := [appW] }]
        totalQueries := 1
        earlyExit := false
        ipListHref := some "/ip_lists/any"
        denyRules := [{ env := envB, service := svcRDP, apps := [appW] }]
        ruleResults := [({ env := envB, service := svcRDP, apps := [appW] }, Except.ok ())] } :=
  ⟨rfl, rfl⟩

/-- C6 (amended): failures loading the environment list or the risky
service list, failure to create the rule set, and failure to resolve the
Any IP list (when queries exist) each terminate the run with the
corresponding fatal error; the run succeeds exactly when the catalog phase
does; a failed application-set load only skips that environment; and every
synthesized finding has its creation attempted even when creations fail. -/
theorem errorPropagation_policy (cfg : Config) (o : Oracles) :
    (∀ e, o.envsR = .error e → runMain cfg o = .error (.loadEnvs e)) ∧
    (∀ envs e, o.envsR = .ok envs → o.servicesR = .error e →
      runMain cfg o = .error (.loadServices e)) ∧
    (∀ envs services e, o.envsR = .ok envs → o.servicesR = .ok services →
      o.rulesetR = .error e → runMain cfg o = .error (.createRuleset e)) ∧
    (∀ envs services rh e, o.envsR = .ok envs → o.servicesR = .ok services →
      o.rulesetR = .ok rh →
      totalQueriesOf services (envInfosOf envs o.workloadsR) ≠ 0 →
      getIPListHref targetIPListName o.ipListsR = .error e →
      runMain cfg o = .error (.resolveIPList e)) ∧
    ((∃ r, runMain cfg o = .ok r) ↔ catalogOk o) ∧
    (∀ env e, o.workloadsR env = .error e →
      ∀ envs, o.envsR = .ok envs → ∀ ei ∈ envInfosOf envs o.workloadsR, ei.env ≠ env) ∧
    (∀ r, runMain cfg o = .ok r → r.ruleResults.map Prod.fst = r.denyRules) := by
  refine ⟨?_, ?_, ?_, ?_, runMain_isOk_iff cfg o, ?_, fun r hr => runMain_ok_ruleResults hr⟩
  · intro e he
    simp [runMain, he]
  · intro envs e he hsv
    simp [runMain, he, hsv]
  · intro envs services e he hsv hrs
    simp [runMain, he, hsv, hrs]
  · intro envs services rh e he hsv hrs ht hip
    simp [runMain, he, hsv, hrs, ht, hip]
  · intro env e hw envs henvs ei hei heq
    obtain ⟨_, hwl, _⟩ := envInfosOf_spec hei
    rw [heq, hw] at hwl
    simp [getWorkloadsForEnv] at hwl

/-- C6 witness: a run whose environment listing fails terminally. -/
theorem errorPropagation_policy_witness :
    runMain cfg0 oraclesEnvsFail = .error (.loadEnvs .transport) :=
  (errorPropagation_policy cfg0 oraclesEnvsFail).1 .transport rfl

/-- C7 counterexample: with two IP lists matching the target name, the
resolution does not fail as ambiguous — it silently returns the first
match's href. -/
theorem ambiguous_ipList_not_rejected :
    getIPListHref targetIPListName (.ok [ipAny, ipAny2]) = .ok "/ip_lists/any" ∧
    ipAny ≠ ipAny2 := ⟨rfl, by decide⟩

/-- C7 (amended): the resolution fails with a not-found error exactly when
the listing matches nothing (or the listing call itself fails); when one or
more matches are returned it returns the href of the first entry, even if
the match is ambiguous. -/
theorem getIPListHref_first_match (name : String) :
    getIPListHref name (.ok []) = .error (.notFound name) ∧
    (∀ (l : IPList) (ls : List IPList), getIPListHref name (.ok (l :: ls)) = .ok l.href) ∧
    (∀ e, getIPListHref name (.error e) = .error (.transport e)) :=
  ⟨rfl, fun _ _ => rfl, fun _ => rfl⟩

/-- C8: the precomputed total equals the number of verification calls
actually issued (the sum over retained environments of appCount times
serviceCount); an environment whose application set is empty is excluded
from the retained list, issues no query, and contributes zero; and in every
reachable state of the fan-out the total is unchanged from its precomputed
value. -/
theorem progressTotal_precomputed (envs : List Label)
    (wR : Label → Except TErr (List (List Label))) (services : List Service) :
    totalQueriesOf services (envInfosOf envs wR) =
      (queriesIssued services (envInfosOf envs wR)).length ∧
    (∀ env, getWorkloadsForEnv (wR env) = .ok [] →
      (∀ ei ∈ envInfosOf envs wR, ei.env ≠ env) ∧
      (∀ q ∈ queriesIssued services (envInfosOf envs wR), q.1 ≠ env)) ∧
    (∀ s, Reachable (mkGroups (envInfosOf envs wR) services) s →
      s.totalQueries = totalQueriesOf services (envInfosOf envs wR)) := by
  have hskip : ∀ env, getWorkloadsForEnv (wR env) = .ok [] →
      ∀ ei ∈ envInfosOf envs wR, ei.env ≠ env := by
    intro env hw ei hei heq
    obtain ⟨_, hwl, hne⟩ := envInfosOf_spec hei
    rw [heq, hw] at hwl
    exact hne (by injection hwl with h2; exact h2.symm)
  refine ⟨(length_queriesIssued services (envInfosOf envs wR)).symm, ?_, ?_⟩
  · intro env hw
    refine ⟨hskip env hw, ?_⟩
    intro q hq heq
    obtain ⟨ei, hei, hq1⟩ := mem_queriesIssued hq
    exact hskip env hw ei hei (hq1 ▸ heq)
  · intro s hreach
    rw [(inv_reachable hreach).total_fixed, total_mkGroups]

/-- C8 witness: environment `/env/a` has an empty workload listing and the
run totals one query for `/env/b`; the machine's initial state carries that
total. -/
theorem progressTotal_precomputed_witness :
    totalQueriesOf [svcRDP] (envInfosOf [envA, envB] wEmpty) =
      (queriesIssued [svcRDP] (envInfosOf [envA, envB] wEmpty)).length ∧
    (initState (mkGroups (envInfosOf [envA, envB] wEmpty) [svcRDP])).totalQueries =
      totalQueriesOf [svcRDP] (envInfosOf [envA, envB] wEmpty) :=
  ⟨(progressTotal_precomputed [envA, envB] wEmpty [svcRDP]).1,
   (progressTotal_precomputed [envA, envB] wEmpty [svcRDP]).2.2 _ Reachable.init⟩

/-- C9: every payload a traffic verification submits carries the port
filter built from the service's ports — the empty list for a service with
no configured ports (the query is still issued: the trace is never empty) —
and a ServicePort whose to_port is zero yields an entry with the to_port
field omitted, while a non-zero to_port is kept. -/
theorem portFilter_edge_cases (envHref appHref : String) (service : Service)
    (eb em : Bool) (oracle : Window → AsyncEnv) :
    ((submitTrafficQuery envHref appHref service eb em oracle).2 ≠ [] ∧
      ∀ q ∈ (submitTrafficQuery envHref appHref service eb em oracle).2,
        q.ports = buildPorts service.servicePorts) ∧
    (service.servicePorts = [] →
      ∀ q ∈ (submitTrafficQuery envHref appHref service eb em oracle).2, q.ports = []) ∧
    (∀ sp ∈ service.servicePorts,
      (sp.toPort = 0 → (portEntryOf sp).toPort = none) ∧
      (sp.toPort ≠ 0 → (portEntryOf sp).toPort = some sp.toPort)) := by
  have hports : ∀ q ∈ (submitTrafficQuery envHref appHref service eb em oracle).2,
      q.ports = buildPorts service.servicePorts := by
    rcases hs : runQueryIn (oracle .short) with e | b
    · simp [submitTrafficQuery, hs, mkPayload]
    · cases b
      · rcases hl : runQueryIn (oracle .long) with e | b2
        · simp [submitTrafficQuery, hs, hl, mkPayload]
        · cases b2 <;> simp [submitTrafficQuery, hs, hl, mkPayload]
      · simp [submitTrafficQuery, hs, mkPayload]
  have hne : (submitTrafficQuery envHref appHref service eb em oracle).2 ≠ [] := by
    rcases hs : runQueryIn (oracle .short) with e | b
    · simp [submitTrafficQuery, hs]
    · cases b
      · rcases hl : runQueryIn (oracle .long) with e | b2
        · simp [submitTrafficQuery, hs, hl]
        · cases b2 <;> simp [submitTrafficQuery, hs, hl]
      · simp [submitTrafficQuery, hs]
  refine ⟨⟨hne, hports⟩, ?_, ?_⟩
  · intro hempty q hq
    rw [hports q hq, hempty]
    rfl
  · intro sp _
    refine ⟨fun hz => ?_, fun hz => ?_⟩
    · simp [portEntryOf, hz]
    · simp [portEntryOf, hz]

/-- C9 witness: the empty-port service and the two to_port shapes. -/
theorem portFilter_edge_cases_witness :
    (mkPayload "/e" "/a" svcNoPorts false false .short).ports = [] ∧
    (portEntryOf spZero).toPort = none ∧
    (portEntryOf spRange).toPort = some 139 :=
  ⟨(portFilter_edge_cases "/e" "/a" svcNoPorts false false (fun _ => envCompleted 0)).2.1
      rfl (mkPayload "/e" "/a" svcNoPorts false false .short) (by decide),
   ((portFilter_edge_cases "/e" "/a" svcWins false false
      (fun _ => envCompleted 0)).2.2 spZero (by decide)).1 rfl,
   ((portFilter_edge_cases "/e" "/a" svcWins false false
      (fun _ => envCompleted 0)).2.2 spRange (by decide)).2 (by decide)⟩

/-- C10: a poll response with status completed but no numeric flows_count
field is read as zero flows, so the query reports no traffic; with both
windows answering that way the triple verifies as no-traffic and the
application joins the group's no-traffic (deny-eligible) set. -/
theorem malformed_completed_treated_as_zero (p : PollResp)
    (hst : pollStatus p = "completed") (hn : p.flowsCount.asNum = none) :
    pollFlows p = 0 ∧
    runSingleAsyncQuery .accepted (fun _ => Except.ok p) = .ok false ∧
    (∀ envHref appHref service eb em,
      (submitTrafficQuery envHref appHref service eb em
        (fun _ => { submit := .accepted, respond := fun _ => Except.ok p })).1 =
        .ok true) ∧
    (∀ cfg o (ei : EnvInfo) (svc : Service) (a : Label), a ∈ ei.apps →
      o.trafficR ei.env.href a.href svc =
        (fun _ => { submit := .accepted, respond := fun _ => Except.ok p }) →
      a ∈ appsNoTrafficOf cfg o ei svc) := by
  have hflows : pollFlows p = 0 := by simp [pollFlows, hn]
  have hrun : runSingleAsyncQuery .accepted (fun _ => Except.ok p) = .ok false := by
    have hm : maxPolls = 59 + 1 := rfl
    unfold runSingleAsyncQuery
    rw [hm, pollLoop_completes rfl hst, hflows]
    simp
  have hsub : ∀ envHref appHref service eb em,
      (submitTrafficQuery envHref appHref service eb em
        (fun _ => { submit := .accepted, respond := fun _ => Except.ok p })).1 =
        .ok true := by
    intro envHref appHref service eb em
    simp [submitTrafficQuery, runQueryIn, hrun]
  refine ⟨hflows, hrun, hsub, ?_⟩
  intro cfg o ei svc a ha htr
  refine mem_appsNoTrafficOf.mpr ⟨ha, ?_⟩
  unfold verifyTriple
  rw [htr]
  exact hsub _ _ _ _ _

/-- C10 witness: a completed response whose flows_count is JSON null. -/
theorem malformed_completed_witness :
    pollStatus completedNull = "completed" ∧
    runSingleAsyncQuery .accepted (fun _ => Except.ok completedNull) = .ok false ∧
    (submitTrafficQuery "/env/b" "/app/w" svcRDP false false
      (fun _ => { submit := .accepted, respond := fun _ => Except.ok completedNull })).1 =
      .ok true :=
  ⟨rfl,
   (malformed_completed_treated_as_zero completedNull rfl rfl).2.1,
   (malformed_completed_treated_as_zero completedNull rfl rfl).2.2.1 "/env/b" "/app/w"
     svcRDP false false⟩
